import Mathlib

/-!
Shallow embedding of `src/target.cpp` from the logog logging library
(the output-target subsystem): the `LogBuffer` ring-buffer sink, the
`LogFile` file sink, the console sinks and the `Target` lifecycle,
together with theorems settling the specification claims about them.

Conventions.  The byte arena of a `LogBuffer` is modelled as a total map
`Nat → Nat` of LOGOG_CHAR cells indexed by offset from `m_pStart`;
pointers become offsets (`m_pStart = 0`, `m_pEnd = cap`,
`m_pCurrent = cur`).  The machine-word length header (`size_t`, 8 chars
on the modelled LP64 non-wide-character build) written by
`LogBuffer::Insert` occupies `hdr` cells; its numeric value is kept in
the first cell of its region.  Statuses are `Int` (0 success, negative
failure), matching the C++ `int` returns.  The downstream target of a
`LogBuffer` is modelled observationally: `World.sent` is the sequence of
strings handed to the downstream `Output`, and `World.stats` the list of
statuses its successive `Output` calls will return (an exhausted list
meaning success from then on).  The build modelled is the POSIX flavor
(`LOGOG_FLAVOR_POSIX`); the compile-time choices `LOGOG_UNICODE`,
`sizeof(LOGOG_CHAR)` and the runtime endianness probe appear as explicit
parameters of the file-sink model.
-/

/-- Number of LOGOG_CHAR cells of the machine-word (`size_t`) record
length header stored by `LogBuffer::Insert` (8 on the modelled 64-bit
build: `m_pCurrent = (LOGOG_CHAR *)++pSize`). -/
def hdr : Nat := 8

/-- Store the bytes `bs` at consecutive cells starting at offset `p`
(the `while ( size-- ) *m_pCurrent++ = *pChars++;` copy loop of
`LogBuffer::Insert`). -/
def writeBytes (m : Nat → Nat) (p : Nat) : List Nat → (Nat → Nat)
  | [] => m
  | b :: bs => writeBytes (fun o => if o = p then b else m o) (p + 1) bs

/-- Read `n` consecutive cells starting at offset `p`. -/
def readBytes (m : Nat → Nat) (p : Nat) : Nat → List Nat
  | 0 => []
  | n + 1 => m p :: readBytes m (p + 1) n

/-- Modelled from the spec: `String::assign(p, pEnd)` lives in the
repository's `string.cpp`, which is not under `src/`; per the spec a
record "whose trailing byte is a terminator is trimmed by one byte
before forwarding", so `assign` copies the half-open cell range
`[p, q)`. -/
def stringAssign (m : Nat → Nat) (p q : Nat) : List Nat :=
  readBytes m p (q - p)

/-- The arena after `LogBuffer::Insert`'s two writes at cursor `c`: the
record length in the machine-word header at `[c, c + hdr)` (value kept
in cell `c`), then the record bytes at `[c + hdr, c + hdr + len)`. -/
def writeRecord (m : Nat → Nat) (c : Nat) (r : List Nat) : Nat → Nat :=
  writeBytes (fun o => if o = c then r.length else m o) (c + hdr) r

/-- Arena contents after packing a list of records consecutively from
offset `b` (what a run of successful Inserts produces). -/
def packMem : List (List Nat) → Nat → (Nat → Nat) → (Nat → Nat)
  | [], _, m => m
  | r :: rs, b, m => packMem rs (b + hdr + r.length) (writeRecord m b r)

/-- Cells consumed by packing records: one header plus the data, per
record. -/
def packLen : List (List Nat) → Nat
  | [] => 0
  | r :: rs => hdr + r.length + packLen rs

/-- What `Dump` forwards for one buffered record: the record minus its
final cell (`sOut.assign( pCurrent, pCurrent + *pSize - 1 )`). -/
def trim (r : List Nat) : List Nat := r.take (r.length - 1)

/-- State of a `LogBuffer`: arena capacity (`m_pEnd - m_pStart`), write
cursor (`m_pCurrent - m_pStart`), arena cells, and whether
`m_pOutputTarget` is non-null. -/
structure LogBufferSt where
  cap : Nat
  cur : Nat
  mem : Nat → Nat
  hasTarget : Bool

/-- A buffer together with the observable behaviour of its downstream
target: `sent` records every string passed to the downstream `Output`,
`stats` lists the statuses its successive calls will return. -/
structure World where
  buf : LogBufferSt
  sent : List (List Nat)
  stats : List Int

/-- Result of the replay loop of `LogBuffer::Dump`: remaining downstream
statuses, accumulated forwarded strings, and the loop's status. -/
structure DumpRes where
  stats : List Int
  sent : List (List Nat)
  err : Int

/-- The `while ( pCurrent < m_pCurrent )` replay loop of
`LogBuffer::Dump`: read the header, build `sOut` from the data cells
minus the final one, forward it, stop at the first nonzero downstream
status.  `fuel` strictly bounds the number of iterations (every
iteration advances the cursor by at least `hdr ≥ 1` cells);
`LogBuffer_Dump` supplies `stop + 1` fuel, which makes the `0` branch
unreachable. -/
def dumpGo (fuel : Nat) (m : Nat → Nat) (cur stop : Nat)
    (stats : List Int) (sent : List (List Nat)) : DumpRes :=
  match fuel with
  | 0 => ⟨stats, sent, 0⟩
  | fuel + 1 =>
    if cur < stop then
      let size := m cur
      let sOut := stringAssign m (cur + hdr) (cur + hdr + size - 1)
      let st := stats.getD 0 0
      if st = 0 then
        dumpGo fuel m (cur + hdr + size) stop (stats.drop 1) (sent ++ [sOut])
      else ⟨stats.drop 1, sent ++ [sOut], st⟩
    else ⟨stats, sent, 0⟩

/-- `LogBuffer::Dump`: returns -1 at once when `m_pOutputTarget` is
null; otherwise replays every complete record in `[0, cur)` through the
downstream `Output`, propagates the first nonzero status without
touching the cursor, and resets the cursor to the arena start only on
full success. -/
def LogBuffer_Dump (w : World) : World × Int :=
  if w.buf.hasTarget = false then (w, -1)
  else
    let res := dumpGo (w.buf.cur + 1) w.buf.mem 0 w.buf.cur w.stats w.sent
    if res.err = 0 then
      ({ w with buf := { w.buf with cur := 0 }, stats := res.stats, sent := res.sent }, 0)
    else
      ({ w with stats := res.stats, sent := res.sent }, res.err)

/-- `LogBuffer::Insert`: when appending would reach `m_pEnd` it first
calls `Dump()` discarding that call's status; then it rejects a record
longer than the whole arena with -1; otherwise it stores the length
header and the record bytes and advances the cursor.  Exactly as in the
source, neither check counts the `hdr` cells the header itself needs. -/
def LogBuffer_Insert (w : World) (r : List Nat) : World × Int :=
  let w1 := if w.buf.cap ≤ w.buf.cur + r.length then (LogBuffer_Dump w).1 else w
  if w1.buf.cap < r.length then (w1, -1)
  else
    ({ w1 with buf := { w1.buf with
        mem := writeRecord w1.buf.mem w1.buf.cur r,
        cur := w1.buf.cur + hdr + r.length } }, 0)

/-- Run a sequence of `Insert` calls, collecting their statuses. -/
def runInserts : World → List (List Nat) → World × List Int
  | w, [] => (w, [])
  | w, r :: rs =>
    let x := LogBuffer_Insert w r
    let rest := runInserts x.1 rs
    (rest.1, x.2 :: rest.2)

/-- A freshly `Allocate`d arena. -/
def zeroMem : Nat → Nat := fun _ => 0

/-- Fresh buffer attached to a downstream target (`LogBuffer::LogBuffer`
followed by `Allocate`): empty arena, cursor at start. -/
def initWorld (cap : Nat) : World :=
  { buf := { cap := cap, cur := 0, mem := zeroMem, hasTarget := true },
    sent := [], stats := [] }

/-- Fresh buffer whose `m_pOutputTarget` is null. -/
def noTargetWorld (cap : Nat) : World :=
  { buf := { cap := cap, cur := 0, mem := zeroMem, hasTarget := false },
    sent := [], stats := [] }

/-- Buffer holding the records `recs` already packed from the arena
start, cursor just past the last record, downstream statuses `stats`. -/
def packWorld (cap : Nat) (recs : List (List Nat)) (stats : List Int) : World :=
  { buf := { cap := cap, cur := packLen recs, mem := packMem recs 0 zeroMem,
             hasTarget := true },
    sent := [], stats := stats }

/-- Per-instance state of a `LogFile`: the `m_bFirstTime` and
`m_bOpenFailed` flags, whether `m_pFile` is non-null, how many times
`Open()` ran, and every byte written to the file so far. -/
structure LogFileSt where
  firstTime : Bool
  openFailed : Bool
  fileOpen : Bool
  openAttempts : Nat
  written : List Nat

/-- State set up by `LogFile::LogFile`. -/
def LogFile_init : LogFileSt :=
  { firstTime := true, openFailed := false, fileOpen := false,
    openAttempts := 0, written := [] }

/-- Environment of one `LogFile` instance: whether `fopen` of its path
can succeed, whether the file pre-exists, the `LOGOG_UNICODE` build
flag, `sizeof(LOGOG_CHAR)`, and the result of the runtime endianness
probe of `WriteUnicodeBOM`. -/
structure FileEnv where
  canOpen : Bool
  preexists : Bool
  unicode : Bool
  charSize : Nat
  littleEndian : Bool

/-- Bytes emitted by `LogFile::WriteUnicodeBOM`, by character width and
probed endianness (width 1 and unknown widths emit nothing). -/
def WriteUnicodeBOM (littleEndian : Bool) (charSize : Nat) : List Nat :=
  match charSize with
  | 2 => if littleEndian then [0xFF, 0xFE] else [0xFE, 0xFF]
  | 4 => if littleEndian then [0xFF, 0xFE, 0x00, 0x00] else [0x00, 0x00, 0xFE, 0xFF]
  | _ => []

/-- `LogFile::Open` (POSIX flavor): probe pre-existence, `fopen` the
path in binary append mode; on failure set `m_bOpenFailed` permanently
and return -1, on success emit the byte-order mark when the build is a
wide-character one and the file did not pre-exist. -/
def LogFile_Open (env : FileEnv) (f : LogFileSt) : LogFileSt × Int :=
  let f1 := { f with openAttempts := f.openAttempts + 1 }
  if env.canOpen then
    let f2 := { f1 with fileOpen := true }
    let f3 :=
      if env.unicode && !env.preexists then
        { f2 with written := f2.written ++ WriteUnicodeBOM env.littleEndian env.charSize }
      else f2
    (f3, 0)
  else
    ({ f1 with openFailed := true }, -1)

/-- `LogFile::InternalOutput`: `fwrite` of the data; a short write is
reported as -1. -/
def LogFile_InternalOutput (writeOk : Bool) (data : List Nat)
    (f : LogFileSt) : LogFileSt × Int :=
  if writeOk then ({ f with written := f.written ++ data }, 0) else (f, -1)

/-- `LogFile::Output`: short-circuit with -1 once `m_bOpenFailed` is
set; on the first call run `Open()` and propagate its failure; then
append the rendered bytes. -/
def LogFile_Output (env : FileEnv) (writeOk : Bool) (data : List Nat)
    (f : LogFileSt) : LogFileSt × Int :=
  if f.openFailed then (f, -1)
  else if f.firstTime then
    let r := LogFile_Open env f
    if r.2 ≠ 0 then r
    else LogFile_InternalOutput writeOk data { r.1 with firstTime := false }
  else LogFile_InternalOutput writeOk data f

/-- Run a sequence of `LogFile::Output` calls (each a pair of the
`fwrite` outcome and the data), collecting the statuses. -/
def LogFile_run (env : FileEnv) : List (Bool × List Nat) → LogFileSt → LogFileSt × List Int
  | [], f => (f, [])
  | c :: cs, f =>
    let r := LogFile_Output env c.1 c.2 f
    let rest := LogFile_run env cs r.1
    (rest.1, r.2 :: rest.2)

/-- `Cerr::Output`: streams the text to the error console and returns
the literal 0, whatever became of the stream write. -/
def Cerr_Output (streamOk : Bool) (data : List Nat) : Int := 0

/-- `Cout::Output`: prints the text (possibly colorized) via
`ColoredPrintf` and returns the literal 0, whatever became of the
write. -/
def Cout_Output (streamOk : Bool) (data : List Nat) : Int := 0

/-- The registry/filter events a `Target`'s lifetime consists of. -/
inductive LifeEv where
  | registryInsert
  | subscribeFilters
  | unsubscribeFilters
  | registryErase
deriving DecidableEq

/-- Whether the target is in `AllTargets()` and whether it is in the
filters' subscriber lists. -/
structure LifeState where
  registered : Bool
  subscribed : Bool

/-- Effect of one lifecycle event. -/
def lifeStep (s : LifeState) : LifeEv → LifeState
  | .registryInsert => { s with registered := true }
  | .subscribeFilters => { s with subscribed := true }
  | .unsubscribeFilters => { s with subscribed := false }
  | .registryErase => { s with registered := false }

/-- Events of `Target::Target` in source order: insert into
`AllTargets()` under its lock, then `SubscribeToMultiple(AllFilters())`.
The subscription step is modelled from the spec (the Filter collaborator
lives outside `src/`): it makes the target a member of every filter's
subscriber set. -/
def targetCtorEvents : List LifeEv := [.registryInsert, .subscribeFilters]

/-- Events of `Target::~Target` in source order:
`UnsubscribeToMultiple(AllFilters())` first, then erase from
`AllTargets()` under its lock. -/
def targetDtorEvents : List LifeEv := [.unsubscribeFilters, .registryErase]

/-- A whole lifetime at the granularity of these events (nothing between
construction and destruction touches registry membership or filter
subscription). -/
def lifeTrace : List LifeEv := targetCtorEvents ++ targetDtorEvents

/-! ### Helper lemmas about the arena primitives -/

lemma writeBytes_lt (bs : List Nat) : ∀ (m : Nat → Nat) (p o : Nat), o < p →
    writeBytes m p bs o = m o := by
  induction bs with
  | nil => intro m p o _; rfl
  | cons b bs ih =>
    intro m p o h
    show writeBytes (fun x => if x = p then b else m x) (p + 1) bs o = m o
    rw [ih _ (p + 1) o (by omega)]
    exact if_neg (by omega)

lemma readBytes_writeBytes (bs : List Nat) : ∀ (n : Nat) (m : Nat → Nat) (p : Nat),
    n ≤ bs.length → readBytes (writeBytes m p bs) p n = bs.take n := by
  induction bs with
  | nil =>
    intro n m p h
    have hn : n = 0 := by simpa using h
    subst hn; rfl
  | cons b bs ih =>
    intro n m p h
    cases n with
    | zero => rfl
    | succ k =>
      show (writeBytes (fun x => if x = p then b else m x) (p + 1) bs) p
            :: readBytes (writeBytes (fun x => if x = p then b else m x) (p + 1) bs) (p + 1) k
          = b :: bs.take k
      rw [writeBytes_lt bs _ (p + 1) p (by omega), if_pos rfl,
          ih k _ (p + 1) (by simp [List.length_cons] at h; omega)]

lemma writeRecord_lt (r : List Nat) (m : Nat → Nat) (c o : Nat) (h : o < c) :
    writeRecord m c r o = m o := by
  unfold writeRecord
  have hh : hdr = 8 := rfl
  rw [writeBytes_lt r _ (c + hdr) o (by omega)]
  exact if_neg (by omega)

lemma writeRecord_header (r : List Nat) (m : Nat → Nat) (c : Nat) :
    writeRecord m c r c = r.length := by
  unfold writeRecord
  have hh : hdr = 8 := rfl
  rw [writeBytes_lt r _ (c + hdr) c (by omega)]
  exact if_pos rfl

lemma readBytes_writeRecord (r : List Nat) (m : Nat → Nat) (c n : Nat)
    (h : n ≤ r.length) : readBytes (writeRecord m c r) (c + hdr) n = r.take n := by
  unfold writeRecord
  exact readBytes_writeBytes r n _ (c + hdr) h

lemma packMem_lt (recs : List (List Nat)) : ∀ (b : Nat) (m : Nat → Nat) (o : Nat),
    o < b → packMem recs b m o = m o := by
  induction recs with
  | nil => intro b m o _; rfl
  | cons r rs ih =>
    intro b m o h
    show packMem rs (b + hdr + r.length) (writeRecord m b r) o = m o
    have hh : hdr = 8 := rfl
    rw [ih _ _ o (by omega), writeRecord_lt r m b o h]

lemma readBytes_congr : ∀ (n : Nat) (m m' : Nat → Nat) (p : Nat),
    (∀ o, p ≤ o → o < p + n → m o = m' o) → readBytes m p n = readBytes m' p n := by
  intro n
  induction n with
  | zero => intro m m' p _; rfl
  | succ k ih =>
    intro m m' p h
    show m p :: readBytes m (p + 1) k = m' p :: readBytes m' (p + 1) k
    rw [h p (Nat.le_refl p) (by omega),
        ih m m' (p + 1) (fun o h1 h2 => h o (by omega) (by omega))]

lemma readBytes_packMem (recs : List (List Nat)) (b : Nat) (m : Nat → Nat)
    (p n : Nat) (h : p + n ≤ b) :
    readBytes (packMem recs b m) p n = readBytes m p n :=
  readBytes_congr n _ _ p (fun o _ h2 => packMem_lt recs b m o (by omega))

lemma getD_drop_one (l : List Int) (i : Nat) :
    (l.drop 1).getD i 0 = l.getD (i + 1) 0 := by
  cases l with
  | nil => rfl
  | cons a t => rfl

lemma drop_one_drop (l : List Int) (n : Nat) :
    (l.drop 1).drop n = l.drop (n + 1) := by
  cases l with
  | nil => simp
  | cons a t => rfl

lemma length_le_packLen (recs : List (List Nat)) : recs.length ≤ packLen recs := by
  induction recs with
  | nil => simp [packLen]
  | cons r rs ih =>
    have hh : hdr = 8 := rfl
    simp only [packLen, List.length_cons]
    omega

lemma dumpGo_step (f : Nat) (m : Nat → Nat) (cur stop : Nat)
    (stats : List Int) (sent : List (List Nat)) (h : cur < stop) :
    dumpGo (f + 1) m cur stop stats sent =
      if stats.getD 0 0 = 0 then
        dumpGo f m (cur + hdr + m cur) stop (stats.drop 1)
          (sent ++ [stringAssign m (cur + hdr) (cur + hdr + m cur - 1)])
      else ⟨stats.drop 1, sent ++ [stringAssign m (cur + hdr) (cur + hdr + m cur - 1)],
            stats.getD 0 0⟩ := by
  rw [dumpGo, if_pos h]

lemma dumpGo_exit (f : Nat) (m : Nat → Nat) (cur stop : Nat)
    (stats : List Int) (sent : List (List Nat)) (h : ¬ cur < stop) :
    dumpGo (f + 1) m cur stop stats sent = ⟨stats, sent, 0⟩ := by
  rw [dumpGo, if_neg h]

lemma packMem_header (r : List Nat) (rs : List (List Nat)) (base : Nat)
    (m0 : Nat → Nat) : packMem (r :: rs) base m0 base = r.length := by
  show packMem rs (base + hdr + r.length) (writeRecord m0 base r) base = r.length
  have hh : hdr = 8 := rfl
  rw [packMem_lt rs _ _ base (by omega), writeRecord_header]

lemma packMem_sOut (r : List Nat) (rs : List (List Nat)) (base : Nat)
    (m0 : Nat → Nat) (hr : 1 ≤ r.length) :
    stringAssign (packMem (r :: rs) base m0) (base + hdr)
      (base + hdr + r.length - 1) = trim r := by
  unfold stringAssign
  have hh : hdr = 8 := rfl
  have h1 : base + hdr + r.length - 1 - (base + hdr) = r.length - 1 := by omega
  rw [h1]
  show readBytes (packMem rs (base + hdr + r.length) (writeRecord m0 base r))
        (base + hdr) (r.length - 1) = trim r
  rw [readBytes_packMem rs _ _ _ _ (by omega),
      readBytes_writeRecord r m0 base (r.length - 1) (by omega)]
  rfl

lemma dumpGo_ok : ∀ (recs : List (List Nat)) (fuel base : Nat) (m0 : Nat → Nat)
    (stats : List Int) (sent : List (List Nat)),
    (∀ r ∈ recs, 1 ≤ r.length) →
    (∀ i, i < recs.length → stats.getD i 0 = 0) →
    recs.length < fuel →
    dumpGo fuel (packMem recs base m0) base (base + packLen recs) stats sent
      = ⟨stats.drop recs.length, sent ++ recs.map trim, 0⟩ := by
  intro recs
  induction recs with
  | nil =>
    intro fuel base m0 stats sent _ _ hfuel
    obtain ⟨f, rfl⟩ : ∃ f, fuel = f + 1 := ⟨fuel - 1, by omega⟩
    rw [dumpGo_exit f _ base _ stats sent (by simp [packLen])]
    simp
  | cons r rs ih =>
    intro fuel base m0 stats sent hwf hst hfuel
    have hh : hdr = 8 := rfl
    have hr : 1 ≤ r.length := hwf r (by simp)
    obtain ⟨f, rfl⟩ : ∃ f, fuel = f + 1 := ⟨fuel - 1, by omega⟩
    rw [dumpGo_step f _ base _ stats sent
          (by simp only [packLen]; omega),
        packMem_header r rs base m0, packMem_sOut r rs base m0 hr,
        if_pos (hst 0 (by simp))]
    have hstop : base + packLen (r :: rs) = (base + hdr + r.length) + packLen rs := by
      simp only [packLen]; omega
    rw [hstop]
    show dumpGo f (packMem rs (base + hdr + r.length) (writeRecord m0 base r))
          (base + hdr + r.length) ((base + hdr + r.length) + packLen rs)
          (stats.drop 1) (sent ++ [trim r]) = _
    rw [ih f (base + hdr + r.length) (writeRecord m0 base r) (stats.drop 1)
          (sent ++ [trim r])
          (fun x hx => hwf x (by simp [hx]))
          (fun i hi => by
            rw [getD_drop_one]
            exact hst (i + 1) (by simp only [List.length_cons]; omega))
          (by simp only [List.length_cons] at hfuel; omega)]
    simp [drop_one_drop]

lemma dumpGo_fail : ∀ (recs : List (List Nat)) (k fuel base : Nat)
    (m0 : Nat → Nat) (stats : List Int) (sent : List (List Nat)),
    (∀ r ∈ recs, 1 ≤ r.length) →
    k < recs.length →
    (∀ i, i < k → stats.getD i 0 = 0) →
    stats.getD k 0 ≠ 0 →
    k < fuel →
    dumpGo fuel (packMem recs base m0) base (base + packLen recs) stats sent
      = ⟨stats.drop (k + 1), sent ++ (recs.take (k + 1)).map trim, stats.getD k 0⟩ := by
  intro recs
  induction recs with
  | nil => intro k fuel base m0 stats sent _ hk; simp at hk
  | cons r rs ih =>
    intro k fuel base m0 stats sent hwf hk hb hf hfuel
    have hh : hdr = 8 := rfl
    have hr : 1 ≤ r.length := hwf r (by simp)
    obtain ⟨f, rfl⟩ : ∃ f, fuel = f + 1 := ⟨fuel - 1, by omega⟩
    rw [dumpGo_step f _ base _ stats sent (by simp only [packLen]; omega),
        packMem_header r rs base m0, packMem_sOut r rs base m0 hr]
    cases k with
    | zero =>
      rw [if_neg hf]
      simp
    | succ k =>
      rw [if_pos (hb 0 (by omega))]
      have hstop : base + packLen (r :: rs) = (base + hdr + r.length) + packLen rs := by
        simp only [packLen]; omega
      rw [hstop]
      show dumpGo f (packMem rs (base + hdr + r.length) (writeRecord m0 base r))
            (base + hdr + r.length) ((base + hdr + r.length) + packLen rs)
            (stats.drop 1) (sent ++ [trim r]) = _
      rw [ih k f (base + hdr + r.length) (writeRecord m0 base r) (stats.drop 1)
            (sent ++ [trim r])
            (fun x hx => hwf x (by simp [hx]))
            (by simp only [List.length_cons] at hk; omega)
            (fun i hi => by rw [getD_drop_one]; exact hb (i + 1) (by omega))
            (by rw [getD_drop_one]; exact hf)
            (by omega)]
      rw [getD_drop_one, drop_one_drop]
      simp

lemma Dump_keeps (w : World) :
    (LogBuffer_Dump w).1.buf.cap = w.buf.cap ∧
    (LogBuffer_Dump w).1.buf.mem = w.buf.mem ∧
    (LogBuffer_Dump w).1.buf.hasTarget = w.buf.hasTarget := by
  unfold LogBuffer_Dump
  dsimp only
  split
  · exact ⟨rfl, rfl, rfl⟩
  · split
    · exact ⟨rfl, rfl, rfl⟩
    · exact ⟨rfl, rfl, rfl⟩

lemma insert_noDump (w : World) (r : List Nat)
    (h1 : w.buf.cur + r.length < w.buf.cap) :
    LogBuffer_Insert w r
      = ({ w with buf := { w.buf with
            mem := writeRecord w.buf.mem w.buf.cur r,
            cur := w.buf.cur + hdr + r.length } }, 0) := by
  unfold LogBuffer_Insert
  rw [if_neg (show ¬ (w.buf.cap ≤ w.buf.cur + r.length) by omega)]
  rw [if_neg (show ¬ (w.buf.cap < r.length) by omega)]

lemma runInserts_spec : ∀ (recs : List (List Nat)) (w : World),
    w.buf.cur + packLen recs ≤ w.buf.cap →
    runInserts w recs
      = ({ w with buf := { w.buf with
            mem := packMem recs w.buf.cur w.buf.mem,
            cur := w.buf.cur + packLen recs } },
         recs.map (fun _ => (0 : Int))) := by
  intro recs
  induction recs with
  | nil =>
    intro w _
    show (w, []) = _
    simp [packMem, packLen]
  | cons r rs ih =>
    intro w hcap
    have hh : hdr = 8 := rfl
    simp only [packLen] at hcap
    have hins := insert_noDump w r (by omega)
    show (let x := LogBuffer_Insert w r
          let rest := runInserts x.1 rs
          (rest.1, x.2 :: rest.2)) = _
    rw [hins]
    dsimp only
    rw [ih _ (by dsimp only; omega)]
    dsimp only
    have hcur : w.buf.cur + hdr + r.length + packLen rs
        = w.buf.cur + packLen (r :: rs) := by
      simp only [packLen]; omega
    rw [hcur]
    rfl

lemma Dump_packed_ok (cap : Nat) (recs : List (List Nat)) (m0 : Nat → Nat)
    (stats : List Int) (sent : List (List Nat))
    (hwf : ∀ r ∈ recs, 1 ≤ r.length)
    (hst : ∀ i, i < recs.length → stats.getD i 0 = 0) :
    LogBuffer_Dump ⟨⟨cap, packLen recs, packMem recs 0 m0, true⟩, sent, stats⟩
      = (⟨⟨cap, 0, packMem recs 0 m0, true⟩, sent ++ recs.map trim,
          stats.drop recs.length⟩, 0) := by
  have hok := dumpGo_ok recs (packLen recs + 1) 0 m0 stats sent hwf hst
      (by have := length_le_packLen recs; omega)
  rw [Nat.zero_add] at hok
  unfold LogBuffer_Dump
  dsimp only
  rw [if_neg (by simp), hok]
  simp

lemma Dump_packed_fail (cap : Nat) (recs : List (List Nat)) (m0 : Nat → Nat)
    (stats : List Int) (sent : List (List Nat)) (k : Nat)
    (hwf : ∀ r ∈ recs, 1 ≤ r.length)
    (hk : k < recs.length)
    (hb : ∀ i, i < k → stats.getD i 0 = 0)
    (hf : stats.getD k 0 ≠ 0) :
    LogBuffer_Dump ⟨⟨cap, packLen recs, packMem recs 0 m0, true⟩, sent, stats⟩
      = (⟨⟨cap, packLen recs, packMem recs 0 m0, true⟩,
          sent ++ (recs.take (k + 1)).map trim, stats.drop (k + 1)⟩,
         stats.getD k 0) := by
  have hgo := dumpGo_fail recs k (packLen recs + 1) 0 m0 stats sent hwf hk hb hf
      (by have := length_le_packLen recs; omega)
  rw [Nat.zero_add] at hgo
  unfold LogBuffer_Dump
  dsimp only
  rw [if_neg (by simp), hgo, if_neg (by exact hf)]

lemma run_after_fail (env : FileEnv) : ∀ (calls : List (Bool × List Nat)) (f : LogFileSt),
    f.openFailed = true → LogFile_run env calls f = (f, calls.map fun _ => (-1 : Int)) := by
  intro calls
  induction calls with
  | nil => intro f _; rfl
  | cons c cs ih =>
    intro f h
    have hout : LogFile_Output env c.1 c.2 f = (f, -1) := by
      unfold LogFile_Output
      rw [if_pos h]
    show (let r := LogFile_Output env c.1 c.2 f
          let rest := LogFile_run env cs r.1
          (rest.1, r.2 :: rest.2)) = _
    rw [hout]
    dsimp only
    rw [ih f h]
    simp

/-! ### Claims -/

/-- C1, counterexample: the round trip is not byte-exact.  With capacity
64, inserting the single record `[65, 66]` succeeds and the following
`Dump` succeeds, but the downstream `Output` receives `[65]` — the
record minus its final byte — not the original record. -/
theorem ringBuffer_roundTrip_cex :
    (LogBuffer_Insert (initWorld 64) [65, 66]).2 = 0 ∧
    (LogBuffer_Dump (LogBuffer_Insert (initWorld 64) [65, 66]).1).2 = 0 ∧
    (LogBuffer_Dump (LogBuffer_Insert (initWorld 64) [65, 66]).1).1.sent = [[65]] ∧
    [[65]] ≠ [[(65 : Nat), 66]] := by decide

/-- C1, amended: for every sequence of nonempty records whose total size
including one machine-word header per record fits the arena, inserting
each record in order (every `Insert` returning success) and then calling
`Dump` hands the downstream `Output` exactly the original records in
original insertion order — each trimmed of its final character, the
terminator trim of the replay loop — with no extra or missing records,
and resets the cursor to the arena start. -/
theorem ringBuffer_roundTrip_trim (cap : Nat) (recs : List (List Nat))
    (hwf : ∀ r ∈ recs, 1 ≤ r.length)
    (hcap : packLen recs ≤ cap) :
    (runInserts (initWorld cap) recs).2 = recs.map (fun _ => (0 : Int)) ∧
    LogBuffer_Dump (runInserts (initWorld cap) recs).1
      = (⟨⟨cap, 0, packMem recs 0 zeroMem, true⟩, recs.map trim, []⟩, 0) := by
  have hrun := runInserts_spec recs (initWorld cap)
      (by simp only [initWorld]; omega)
  simp only [initWorld] at hrun
  rw [Nat.zero_add] at hrun
  constructor
  · simp only [initWorld]
    rw [hrun]
  · simp only [initWorld]
    rw [hrun]
    have hd := Dump_packed_ok cap recs zeroMem [] [] hwf (fun i _ => rfl)
    simpa using hd

/-- C1, witness at capacity 32 with records `[1,2,3]` and `[4,5]`. -/
theorem ringBuffer_roundTrip_trim_inst :
    (runInserts (initWorld 32) [[1, 2, 3], [4, 5]]).2
      = [[1, 2, 3], [4, 5]].map (fun _ => (0 : Int)) ∧
    LogBuffer_Dump (runInserts (initWorld 32) [[1, 2, 3], [4, 5]]).1
      = (⟨⟨32, 0, packMem [[1, 2, 3], [4, 5]] 0 zeroMem, true⟩,
          [[1, 2, 3], [4, 5]].map trim, []⟩, 0) :=
  ringBuffer_roundTrip_trim 32 [[1, 2, 3], [4, 5]] (by decide) (by decide)

/-- C2, counterexample: an oversized `Insert` does not leave the buffer
unchanged.  With capacity 16 and one record `[65]` buffered (cursor at
9), inserting a 17-byte record returns -1 and writes none of it, but the
implicit `Dump` fired first: the buffered record was flushed downstream
and the cursor was reset from 9 to 0. -/
theorem insert_tooLarge_cex :
    (LogBuffer_Insert (initWorld 16) [65]).1.buf.cur = 9 ∧
    (LogBuffer_Insert (LogBuffer_Insert (initWorld 16) [65]).1
        (List.replicate 17 7)).2 = -1 ∧
    (LogBuffer_Insert (LogBuffer_Insert (initWorld 16) [65]).1
        (List.replicate 17 7)).1.buf.cur = 0 ∧
    (LogBuffer_Insert (LogBuffer_Insert (initWorld 16) [65]).1
        (List.replicate 17 7)).1.sent = [[]] := by decide

/-- C2, amended: inserting a record whose length alone exceeds the total
arena capacity returns -1 (RecordTooLarge) and writes none of the
record's bytes; but because the overflow test fires first, the call
performs the implicit `Dump`, so the resulting state is exactly the
post-`Dump` state — buffered records may have been flushed and the
cursor reset — rather than the untouched one. -/
theorem insert_tooLarge_flushesFirst (w : World) (r : List Nat)
    (h : w.buf.cap < r.length) :
    LogBuffer_Insert w r = ((LogBuffer_Dump w).1, -1) ∧
    (LogBuffer_Insert w r).1.buf.mem = w.buf.mem := by
  have hcap := (Dump_keeps w).1
  have hmem := (Dump_keeps w).2.1
  have he : LogBuffer_Insert w r = ((LogBuffer_Dump w).1, -1) := by
    unfold LogBuffer_Insert
    rw [if_pos (show w.buf.cap ≤ w.buf.cur + r.length by omega)]
    rw [if_pos (show (LogBuffer_Dump w).1.buf.cap < r.length by omega)]
  exact ⟨he, by rw [he]; exact hmem⟩

/-- C2, witness: capacity 4, record of length 5. -/
theorem insert_tooLarge_inst :
    LogBuffer_Insert (initWorld 4) (List.replicate 5 0)
      = ((LogBuffer_Dump (initWorld 4)).1, -1) ∧
    (LogBuffer_Insert (initWorld 4) (List.replicate 5 0)).1.buf.mem
      = (initWorld 4).buf.mem :=
  insert_tooLarge_flushesFirst (initWorld 4) (List.replicate 5 0) (by decide)

/-- C3, counterexample: `Insert` does not fail when the implicit flush
fails.  With capacity 16 and a null downstream target, `Dump` fails with
-1, yet inserting a 16-byte record — which triggers exactly that flush —
still returns success 0. -/
theorem insert_overflow_cex :
    (LogBuffer_Dump (noTargetWorld 16)).2 = -1 ∧
    (LogBuffer_Insert (noTargetWorld 16) (List.replicate 16 7)).2 = 0 := by decide

/-- C3, amended: when an `Insert` would overflow the arena it does
trigger `Dump` first (the downstream observes exactly the flush's
forwards and consumed statuses), but the flush's status is discarded:
the `Insert` itself returns -1 exactly when the record's length exceeds
the total arena capacity, independently of whether the flush failed. -/
theorem insert_overflow_status_independent (w : World) (r : List Nat)
    (h : w.buf.cap ≤ w.buf.cur + r.length) :
    ((LogBuffer_Insert w r).2 = if w.buf.cap < r.length then (-1 : Int) else 0) ∧
    (LogBuffer_Insert w r).1.sent = (LogBuffer_Dump w).1.sent ∧
    (LogBuffer_Insert w r).1.stats = (LogBuffer_Dump w).1.stats := by
  have hcap := (Dump_keeps w).1
  unfold LogBuffer_Insert
  rw [if_pos h]
  by_cases hc : w.buf.cap < r.length
  · rw [if_pos (show (LogBuffer_Dump w).1.buf.cap < r.length by omega), if_pos hc]
    exact ⟨rfl, rfl, rfl⟩
  · rw [if_neg (show ¬ (LogBuffer_Dump w).1.buf.cap < r.length by omega), if_neg hc]
    exact ⟨rfl, rfl, rfl⟩

/-- C3, witness: capacity 16, empty buffer, record of length 16. -/
theorem insert_overflow_inst :
    ((LogBuffer_Insert (initWorld 16) (List.replicate 16 7)).2
      = if (initWorld 16).buf.cap < (List.replicate 16 7).length then (-1 : Int) else 0) ∧
    (LogBuffer_Insert (initWorld 16) (List.replicate 16 7)).1.sent
      = (LogBuffer_Dump (initWorld 16)).1.sent ∧
    (LogBuffer_Insert (initWorld 16) (List.replicate 16 7)).1.stats
      = (LogBuffer_Dump (initWorld 16)).1.stats :=
  insert_overflow_status_independent (initWorld 16) (List.replicate 16 7) (by decide)

/-- C4, confirmed: `Dump` replays the buffered records from the arena
start toward the write cursor in order.  If the downstream `Output` of
record `k` is the first to fail, the failed record is the last one
forwarded (replay halts), `Dump` returns that failing status, and the
arena contents and write cursor are left exactly as they were (the
`buf` component is unchanged); the cursor is reset to the arena start
only in the other case, when every record was forwarded with status
0. -/
theorem dump_halts_on_first_failure (cap : Nat) (recs : List (List Nat))
    (stats : List Int) (k : Nat)
    (hwf : ∀ r ∈ recs, 1 ≤ r.length)
    (hb : ∀ i, i < k → stats.getD i 0 = 0)
    (hk : k ≤ recs.length)
    (hf : k < recs.length → stats.getD k 0 ≠ 0) :
    (k < recs.length →
      LogBuffer_Dump (packWorld cap recs stats)
        = (⟨(packWorld cap recs stats).buf,
            (recs.take (k + 1)).map trim, stats.drop (k + 1)⟩, stats.getD k 0)) ∧
    (k = recs.length →
      LogBuffer_Dump (packWorld cap recs stats)
        = (⟨⟨cap, 0, packMem recs 0 zeroMem, true⟩,
            recs.map trim, stats.drop recs.length⟩, 0)) := by
  constructor
  · intro hkl
    have hd := Dump_packed_fail cap recs zeroMem stats [] k hwf hkl hb (hf hkl)
    simpa [packWorld] using hd
  · intro hke
    subst hke
    have hd := Dump_packed_ok cap recs zeroMem stats [] hwf hb
    simpa [packWorld] using hd

/-- C4, witness: two packed records `[1,2]`, `[3,4]` with downstream
statuses `[0, -5]`: the second `Output` call is the first failure. -/
theorem dump_halts_inst :
    LogBuffer_Dump (packWorld 30 [[1, 2], [3, 4]] [0, -5])
      = (⟨(packWorld 30 [[1, 2], [3, 4]] [0, -5]).buf, [[1], [3]], []⟩, -5) :=
  (dump_halts_on_first_failure 30 [[1, 2], [3, 4]] [0, -5] 1 (by decide)
    (by decide) (by decide) (by decide)).1 (by decide)

/-- C5, confirmed: for a `LogFile` whose path cannot be opened, every
`Output` call — the first included — returns the failure status -1, and
over any whole call sequence `Open()` runs at most once (the first call
sets `m_bOpenFailed` and every later call short-circuits on it, never
retrying the open). -/
theorem logFile_open_fail_permanent (env : FileEnv) (calls : List (Bool × List Nat))
    (h : env.canOpen = false) :
    (LogFile_run env calls LogFile_init).2 = calls.map (fun _ => (-1 : Int)) ∧
    (LogFile_run env calls LogFile_init).1.openAttempts ≤ 1 := by
  cases calls with
  | nil => exact ⟨rfl, by show (0 : Nat) ≤ 1; decide⟩
  | cons c cs =>
    have hout : LogFile_Output env c.1 c.2 LogFile_init
        = (⟨true, true, false, 1, []⟩, -1) := by
      unfold LogFile_Output LogFile_Open LogFile_init
      simp [h]
    have hall : LogFile_run env (c :: cs) LogFile_init
        = (⟨true, true, false, 1, []⟩, -1 :: cs.map fun _ => (-1 : Int)) := by
      show (let r := LogFile_Output env c.1 c.2 LogFile_init
            let rest := LogFile_run env cs r.1
            (rest.1, r.2 :: rest.2)) = _
      rw [hout]
      dsimp only
      rw [run_after_fail env cs ⟨true, true, false, 1, []⟩ rfl]
    rw [hall]
    exact ⟨by simp, by show (1 : Nat) ≤ 1; decide⟩

/-- C5, witness: an unopenable path and two write attempts. -/
theorem logFile_open_fail_inst :
    (LogFile_run ⟨false, false, false, 1, false⟩ [(true, [7]), (true, [8])]
        LogFile_init).2
      = [(true, [7]), (true, [8])].map (fun _ => (-1 : Int)) ∧
    (LogFile_run ⟨false, false, false, 1, false⟩ [(true, [7]), (true, [8])]
        LogFile_init).1.openAttempts ≤ 1 :=
  logFile_open_fail_permanent ⟨false, false, false, 1, false⟩
    [(true, [7]), (true, [8])] rfl

/-- C6, confirmed: on a wide-character build with 2-byte characters, a
successful `Open` of a file that did not pre-exist writes exactly the
byte-order mark as its first bytes — `FF FE` when the runtime endianness
probe says little-endian, `FE FF` otherwise; when the file pre-exists
nothing is written; a 1-byte character width never gets a mark, and
neither does a non-wide build. -/
theorem logFile_bom_on_new_file : ∀ (le ex co : Bool),
    ((LogFile_Open ⟨true, ex, true, 2, le⟩ LogFile_init).2 = 0 ∧
     (LogFile_Open ⟨true, ex, true, 2, le⟩ LogFile_init).1.written =
       (if ex then [] else if le then [0xFF, 0xFE] else [0xFE, 0xFF])) ∧
    (LogFile_Open ⟨co, ex, true, 1, le⟩ LogFile_init).1.written = [] ∧
    (LogFile_Open ⟨co, ex, false, 2, le⟩ LogFile_init).1.written = [] := by
  decide

/-- C7, confirmed: along the whole lifecycle trace of a `Target` — the
constructor inserts into `AllTargets()` and only then subscribes to the
filters, the destructor unsubscribes first and only then erases from
`AllTargets()` — after every prefix of events, a target that is
subscribed to the filters is also present in the registry. -/
theorem target_lifecycle_ordering : ∀ n : Nat,
    ((lifeTrace.take n).foldl lifeStep ⟨false, false⟩).subscribed = false ∨
    ((lifeTrace.take n).foldl lifeStep ⟨false, false⟩).registered = true := by
  intro n
  match n with
  | 0 => decide
  | 1 => decide
  | 2 => decide
  | 3 => decide
  | (m + 4) =>
    have h : lifeTrace.take (m + 4) = lifeTrace := by
      apply List.take_of_length_le
      simp [lifeTrace, targetCtorEvents, targetDtorEvents]
    rw [h]
    decide

/-- C8, bug exhibit: with capacity 16 (and the 8-cell machine-word
header), inserting a 10-byte record into an empty buffer passes both of
`Insert`'s checks and returns success, yet the write cursor lands at 18
and the record's bytes are stored up to offset 17 — at and past the
arena end 16.  The overflow and capacity tests of the source never add
the header's own size, so the claimed in-bounds property fails. -/
theorem insert_bounds_violation :
    (List.replicate 10 65).length ≤ (initWorld 16).buf.cap ∧
    (LogBuffer_Insert (initWorld 16) (List.replicate 10 65)).2 = 0 ∧
    (LogBuffer_Insert (initWorld 16) (List.replicate 10 65)).1.buf.cur = 18 ∧
    (initWorld 16).buf.cap < 18 ∧
    (LogBuffer_Insert (initWorld 16) (List.replicate 10 65)).1.buf.mem 17 = 65 ∧
    (initWorld 16).buf.mem 17 = 0 := by decide

/-- C9, confirmed: `Cerr::Output` and `Cout::Output` return the literal
status 0 for every input and regardless of whether the underlying stream
write succeeded — console write errors are silently discarded. -/
theorem console_sinks_return_zero : ∀ (streamOk : Bool) (data : List Nat),
    Cerr_Output streamOk data = 0 ∧ Cout_Output streamOk data = 0 := by
  intro s d
  exact ⟨rfl, rfl⟩

/-- C10, confirmed: when `m_pOutputTarget` is null, `Dump` returns -1
immediately and the world — arena contents, write cursor, and everything
observable downstream — is exactly unchanged. -/
theorem dump_no_target_noop (w : World) (h : w.buf.hasTarget = false) :
    LogBuffer_Dump w = (w, -1) := by
  unfold LogBuffer_Dump
  rw [if_pos h]

/-- C10, witness: a fresh 8-cell buffer with a null downstream target. -/
theorem dump_no_target_inst :
    LogBuffer_Dump (noTargetWorld 8) = (noTargetWorld 8, -1) :=
  dump_no_target_noop (noTargetWorld 8) rfl
